import Mathlib

/-!
Verification of a URL-shortening service (FastAPI + SQLModel).

The store (table `url_mappings`) is modelled as a list of records in
insertion order.  The cryptographically secure random source used by
`generate_code` is modelled as an explicit choice oracle
`pick : Nat → Fin 62` (one symbol index per position); the handler's
bounded retry loop receives a per-attempt oracle `Nat → Nat → Fin 62`.
Handlers return an HTTP-level result together with the store after the
request, so error paths carry the unchanged store.
-/

namespace UrlShortener

/-- One row of the `url_mappings` table (`app/models.py`, `URLMapping`):
a short code, the original target URL and a visit counter. -/
structure URLMapping where
  code : String
  target_url : String
  visits : Nat
deriving DecidableEq, Repr

/-- The persistent store: all rows in insertion order. -/
abbrev Store := List URLMapping

/-- An HTTP error response: status code plus the `detail` body field. -/
structure ErrorResponse where
  status : Nat
  detail : String
deriving DecidableEq, Repr

/-- Body of a successful `POST /shorten` (`ShortenResponse` in `app/main.py`). -/
structure ShortenResponse where
  code : String
  short_url : String
deriving DecidableEq, Repr

/-- Body of a successful `GET /_stats/{code}` (`StatsResponse` in `app/main.py`). -/
structure StatsResponse where
  code : String
  target : String
  visits : Nat
deriving DecidableEq, Repr

/-- A redirect response: status code (307) and the `Location` target. -/
structure RedirectResponse where
  status : Nat
  location : String
deriving DecidableEq, Repr

/-- Python `s.startswith(p)`: the characters of `p` are a prefix of those of `s`. -/
def startsWithStr (s p : String) : Bool :=
  p.data.isPrefixOf s.data

/-- `ShortenRequest.validate_url` (`app/main.py`): empty check, scheme
check (`http://` or `https://`), then the space check `' ' in v`. -/
def validate_url (v : String) : Except String String :=
  if v.data.isEmpty then .error "URL cannot be empty"
  else if !(startsWithStr v "http://" || startsWithStr v "https://") then
    .error "URL must start with http:// or https://"
  else if v.data.contains ' ' then .error "URL cannot contain spaces"
  else .ok v

/-- `string.ascii_letters + string.digits`: the 62-symbol alphanumeric
alphabet used by `generate_code`. -/
def urlAlphabet : List Char :=
  "abcdefghijklmnopqrstuvwxyzABCDEFGHIJKLMNOPQRSTUVWXYZ0123456789".data

/-- Symbol of the alphabet selected by one draw of the random source. -/
def alphaIdx (i : Fin 62) : Char :=
  urlAlphabet.getD i.val 'a'

/-- `generate_code` (`app/main.py`): `length` independent draws from the
alphanumeric alphabet, the draws supplied by the oracle `pick`. -/
def generate_code (pick : Nat → Fin 62) (length : Nat) : String :=
  String.mk ((List.range length).map fun i => alphaIdx (pick i))

/-- The SQL query `select(URLMapping).where(URLMapping.code == code)`
followed by `.first()`. -/
def findByCode (db : Store) (code : String) : Option URLMapping :=
  db.find? fun r => r.code == code

/-- The SQL query `select(URLMapping).where(URLMapping.target_url == url)`
followed by `.first()`. -/
def findByTarget (db : Store) (url : String) : Option URLMapping :=
  db.find? fun r => r.target_url == url

/-- `max_attempts = 10` in `shorten_url`. -/
def max_attempts : Nat := 10

/-- The bounded retry loop of `shorten_url`: attempts `0, 1, …, 9` each
generate a 6-character code; the first one not already present in the
store is kept, and `none` models falling through to the 500 error. -/
def fresh_code (pick : Nat → Nat → Fin 62) (db : Store) : Option String :=
  ((List.range max_attempts).map fun i => generate_code (pick i) 6).find?
    fun c => (findByCode db c).isNone

/-- `POST /shorten` (`shorten_url` in `app/main.py`): validate, look up by
exact target URL, otherwise allocate a fresh code and append the new row
with `visits = 0`.  A pydantic validation failure surfaces as a 422. -/
def shorten_url (base_url : String) (pick : Nat → Nat → Fin 62) (db : Store)
    (url : String) : Except ErrorResponse ShortenResponse × Store :=
  match validate_url url with
  | .error msg => (.error ⟨422, msg⟩, db)
  | .ok u =>
    match findByTarget db u with
    | some existing =>
      (.ok ⟨existing.code, base_url ++ "/" ++ existing.code⟩, db)
    | none =>
      match fresh_code pick db with
      | none => (.error ⟨500, "Failed to generate unique code"⟩, db)
      | some code =>
        (.ok ⟨code, base_url ++ "/" ++ code⟩, db ++ [⟨code, u, 0⟩])

/-- `mapping.visits += 1; db.add(mapping); db.commit()`: bump the visit
counter of the row the code lookup returned (the first match). -/
def incrementVisits : Store → String → Store
  | [], _ => []
  | r :: rs, c =>
    if r.code == c then ⟨r.code, r.target_url, r.visits + 1⟩ :: rs
    else r :: incrementVisits rs c

/-- `GET /{code}` (`redirect_to_url` in `app/main.py`): look up by code,
404 if absent, otherwise increment the visit counter and answer with a
307 redirect whose `Location` is the stored target URL. -/
def redirect_to_url (db : Store) (code : String) :
    Except ErrorResponse RedirectResponse × Store :=
  match findByCode db code with
  | none => (.error ⟨404, "URL not found"⟩, db)
  | some mapping => (.ok ⟨307, mapping.target_url⟩, incrementVisits db code)

/-- `GET /_stats/{code}` (`get_stats` in `app/main.py`): pure read of the
row found by code; 404 if absent. -/
def get_stats (db : Store) (code : String) :
    Except ErrorResponse StatsResponse × Store :=
  match findByCode db code with
  | none => (.error ⟨404, "URL not found"⟩, db)
  | some m => (.ok ⟨m.code, m.target_url, m.visits⟩, db)

/-- `N` successive redirect requests on the same code, stopping at the
first error. -/
def redirectN (db : Store) (code : String) : Nat → Except ErrorResponse Store
  | 0 => .ok db
  | n + 1 =>
    match redirect_to_url db code with
    | (.error e, _) => .error e
    | (.ok _, db2) => redirectN db2 code n

/-- Store invariant: short codes are unique across all rows. -/
def codesUnique (db : Store) : Prop :=
  (db.map URLMapping.code).Nodup

/-- Store invariant: no target URL appears in two rows. -/
def targetsUnique (db : Store) : Prop :=
  (db.map URLMapping.target_url).Nodup

/-- A well-formed short code: exactly 6 characters, all drawn from the
62-symbol alphanumeric alphabet. -/
def goodCode (c : String) : Bool :=
  c.data.length == 6 && c.data.all fun ch => urlAlphabet.contains ch

/-- A 2049-character URL, one character over the declared 2048-character
bound on `target_url` (`models.py` declares `max_length=2048`, but neither
the request validator nor the SQLite backend enforces it). -/
def longURL : String :=
  String.mk ('h' :: 't' :: 't' :: 'p' :: ':' :: '/' :: '/' :: List.replicate 2042 'a')

deriving instance DecidableEq for Except

/-! ### Basic lookup lemmas -/

theorem findByCode_eq_none {db : Store} {c : String} :
    findByCode db c = none ↔ ∀ r ∈ db, r.code ≠ c := by
  simp [findByCode, List.find?_eq_none]

theorem findByCode_mem {db : Store} {c : String} {r : URLMapping}
    (h : findByCode db c = some r) : r ∈ db :=
  List.mem_of_find?_eq_some h

theorem findByCode_code {db : Store} {c : String} {r : URLMapping}
    (h : findByCode db c = some r) : r.code = c := by
  simpa using List.find?_some h

theorem findByTarget_mem {db : Store} {u : String} {r : URLMapping}
    (h : findByTarget db u = some r) : r ∈ db :=
  List.mem_of_find?_eq_some h

theorem findByTarget_target {db : Store} {u : String} {r : URLMapping}
    (h : findByTarget db u = some r) : r.target_url = u := by
  simpa using List.find?_some h

theorem findByTarget_eq_none {db : Store} {u : String} :
    findByTarget db u = none ↔ ∀ r ∈ db, r.target_url ≠ u := by
  simp [findByTarget, List.find?_eq_none]

theorem findByCode_append_of_none {db1 db2 : Store} {c : String}
    (h : findByCode db1 c = none) :
    findByCode (db1 ++ db2) c = findByCode db2 c := by
  simp only [findByCode] at *
  rw [List.find?_append, h, Option.none_or]

theorem findByTarget_append_of_none {db1 db2 : Store} {u : String}
    (h : findByTarget db1 u = none) :
    findByTarget (db1 ++ db2) u = findByTarget db2 u := by
  simp only [findByTarget] at *
  rw [List.find?_append, h, Option.none_or]

theorem validate_url_ok {v u : String} (h : validate_url v = .ok u) : u = v := by
  unfold validate_url at h
  split_ifs at h
  simp_all

/-! ### Visit-increment lemmas -/

theorem incrementVisits_map_code (db : Store) (c : String) :
    (incrementVisits db c).map URLMapping.code = db.map URLMapping.code := by
  induction db with
  | nil => rfl
  | cons r rs ih =>
    cases hb : r.code == c <;> simp [incrementVisits, hb, ih]

theorem incrementVisits_map_target (db : Store) (c : String) :
    (incrementVisits db c).map URLMapping.target_url
      = db.map URLMapping.target_url := by
  induction db with
  | nil => rfl
  | cons r rs ih =>
    cases hb : r.code == c <;> simp [incrementVisits, hb, ih]

theorem incrementVisits_getElem? (db : Store) (c : String) (i : Nat) :
    (incrementVisits db c)[i]? = db[i]? ∨
    ∃ r, db[i]? = some r ∧ r.code = c ∧
      (incrementVisits db c)[i]? = some ⟨r.code, r.target_url, r.visits + 1⟩ := by
  induction db generalizing i with
  | nil => left; rfl
  | cons r rs ih =>
    cases hb : r.code == c with
    | false =>
      cases i with
      | zero => left; simp [incrementVisits, hb]
      | succ n =>
        rcases ih n with h | ⟨x, hx, hxc, hx2⟩
        · left; simpa [incrementVisits, hb] using h
        · right; exact ⟨x, by simpa using hx, hxc, by simpa [incrementVisits, hb] using hx2⟩
    | true =>
      cases i with
      | zero =>
        right
        exact ⟨r, by simp, by simpa using hb, by simp [incrementVisits, hb]⟩
      | succ n => left; simp [incrementVisits, hb]

theorem findByCode_incrementVisits {db : Store} {c : String} {m : URLMapping}
    (h : findByCode db c = some m) :
    findByCode (incrementVisits db c) c
      = some ⟨m.code, m.target_url, m.visits + 1⟩ := by
  induction db with
  | nil => cases h
  | cons r rs ih =>
    by_cases hb : r.code = c
    · have hb2 : (r.code == c) = true := by simp [hb]
      have hform : incrementVisits (r :: rs) c
          = ⟨r.code, r.target_url, r.visits + 1⟩ :: rs := by
        simp [incrementVisits, hb2]
      rw [findByCode, @List.find?_cons_of_pos _ (fun x => x.code == c) r rs hb2] at h
      have hrm : r = m := by injection h
      subst hrm
      rw [hform, findByCode,
        @List.find?_cons_of_pos _ (fun x => x.code == c)
          (⟨r.code, r.target_url, r.visits + 1⟩ : URLMapping) rs hb2]
    · have hb2 : (r.code == c) = false := by simp [hb]
      have hform : incrementVisits (r :: rs) c = r :: incrementVisits rs c := by
        simp [incrementVisits, hb2]
      rw [findByCode,
        @List.find?_cons_of_neg _ (fun x => x.code == c) r rs (by simp [hb])] at h
      rw [hform, findByCode,
        @List.find?_cons_of_neg _ (fun x => x.code == c) r (incrementVisits rs c)
          (by simp [hb])]
      exact ih h

theorem redirect_of_found {db : Store} {c : String} {m : URLMapping}
    (h : findByCode db c = some m) :
    redirect_to_url db c = (.ok ⟨307, m.target_url⟩, incrementVisits db c) := by
  simp [redirect_to_url, h]

theorem redirectN_spec {db : Store} {c : String} {m : URLMapping}
    (h : findByCode db c = some m) (N : Nat) :
    ∃ dbN, redirectN db c N = .ok dbN ∧
      findByCode dbN c = some ⟨m.code, m.target_url, m.visits + N⟩ := by
  induction N generalizing db m with
  | zero => exact ⟨db, rfl, by simpa using h⟩
  | succ n ih =>
    obtain ⟨dbN, h3, h4⟩ := ih (findByCode_incrementVisits h)
    refine ⟨dbN, ?_, ?_⟩
    · simp [redirectN, redirect_of_found h, h3]
    · have : m.visits + 1 + n = m.visits + (n + 1) := by omega
      simpa [this] using h4

/-! ### Code-generation lemmas -/

theorem alphaIdx_mem_alphabet (i : Fin 62) :
    urlAlphabet.contains (alphaIdx i) = true := by
  revert i
  decide

theorem goodCode_generate_code (pick : Nat → Fin 62) :
    goodCode (generate_code pick 6) = true := by
  unfold goodCode generate_code
  rw [Bool.and_eq_true]
  constructor
  · simp
  · rw [List.all_eq_true]
    intro x hx
    rcases List.mem_map.mp hx with ⟨i, _, rfl⟩
    exact alphaIdx_mem_alphabet (pick i)

theorem fresh_code_pred {pick : Nat → Nat → Fin 62} {db : Store} {c : String}
    (h : fresh_code pick db = some c) : findByCode db c = none := by
  have := List.find?_some h
  simpa [Option.isNone_iff_eq_none] using this

theorem fresh_code_is_generated {pick : Nat → Nat → Fin 62} {db : Store} {c : String}
    (h : fresh_code pick db = some c) :
    ∃ i, i < max_attempts ∧ c = generate_code (pick i) 6 := by
  have hm := List.mem_of_find?_eq_some h
  rcases List.mem_map.mp hm with ⟨i, hi, rfl⟩
  exact ⟨i, List.mem_range.mp hi, rfl⟩

theorem nodup_append_singleton {α : Type _} {l : List α} {a : α}
    (h : l.Nodup) (ha : a ∉ l) : (l ++ [a]).Nodup := by
  rw [List.nodup_append]
  refine ⟨h, List.nodup_singleton a, ?_⟩
  intro x hx hxa
  rw [List.mem_singleton.mp hxa] at hx
  exact ha hx

/-- Inversion of a successful `POST /shorten`: validation passed and the
request either hit an existing record (store untouched) or appended a
freshly allocated one. -/
theorem shorten_url_ok_cases {base : String} {pick : Nat → Nat → Fin 62}
    {db : Store} {url : String} {resp : ShortenResponse} {db1 : Store}
    (h : shorten_url base pick db url = (.ok resp, db1)) :
    validate_url url = .ok url ∧
    ((∃ ex, findByTarget db url = some ex ∧
        resp = ⟨ex.code, base ++ "/" ++ ex.code⟩ ∧ db1 = db) ∨
     (∃ c, findByTarget db url = none ∧ fresh_code pick db = some c ∧
        resp = ⟨c, base ++ "/" ++ c⟩ ∧ db1 = db ++ [⟨c, url, 0⟩])) := by
  unfold shorten_url at h
  split at h
  · exact absurd (congrArg Prod.fst h) (by simp)
  · rename_i u hval
    obtain rfl : u = url := validate_url_ok hval
    split at h
    · rename_i ex hex
      injection h with h1 h2
      injection h1 with h1
      exact ⟨hval, Or.inl ⟨ex, hex, h1.symm, h2.symm⟩⟩
    · rename_i hnone
      split at h
      · exact absurd (congrArg Prod.fst h) (by simp)
      · rename_i c hc
        injection h with h1 h2
        injection h1 with h1
        exact ⟨hval, Or.inr ⟨c, hnone, hc, h1.symm, h2.symm⟩⟩

/-! ### Claim theorems -/

/-- C4: for a code not present in the store, both the redirect endpoint and
the stats endpoint fail with a 404 whose detail is "URL not found", and
neither call changes the store. -/
theorem not_found_404 (db : Store) (c : String) (h : findByCode db c = none) :
    redirect_to_url db c = (.error ⟨404, "URL not found"⟩, db) ∧
    get_stats db c = (.error ⟨404, "URL not found"⟩, db) := by
  constructor
  · simp [redirect_to_url, h]
  · simp [get_stats, h]

/-- C4 witness: the 404 behaviour at the empty store and code "zzzzzz". -/
theorem not_found_404_witness :
    redirect_to_url [] "zzzzzz" = (.error ⟨404, "URL not found"⟩, []) ∧
    get_stats [] "zzzzzz" = (.error ⟨404, "URL not found"⟩, []) :=
  not_found_404 [] "zzzzzz" rfl

/-- C10: the bare strings "http://" and "https://" pass validation and are
accepted by shorten, which persists a mapping with them as target URL. -/
theorem bare_scheme_accepted (base : String) (pick : Nat → Nat → Fin 62) :
    validate_url "http://" = .ok "http://" ∧
    validate_url "https://" = .ok "https://" ∧
    shorten_url base pick [] "http://" =
      (.ok ⟨generate_code (pick 0) 6, base ++ "/" ++ generate_code (pick 0) 6⟩,
        [⟨generate_code (pick 0) 6, "http://", 0⟩]) ∧
    shorten_url base pick [] "https://" =
      (.ok ⟨generate_code (pick 0) 6, base ++ "/" ++ generate_code (pick 0) 6⟩,
        [⟨generate_code (pick 0) 6, "https://", 0⟩]) :=
  ⟨rfl, rfl, rfl, rfl⟩

/-- C5 counterexample: the string "http://a\tb" contains a whitespace
character (a tab), yet validation accepts it and shorten succeeds on it,
refuting rejection of every whitespace character. -/
theorem whitespace_counterexample :
    ("http://a\tb".data.any Char.isWhitespace = true) ∧
    validate_url "http://a\tb" = .ok "http://a\tb" ∧
    (shorten_url "http://localhost:8000" (fun _ _ => 0) [] "http://a\tb").1 =
      .ok ⟨"aaaaaa", "http://localhost:8000/aaaaaa"⟩ :=
  ⟨by decide, rfl, rfl⟩

/-- C5 (amended): validation rejects a string exactly when it is empty, or
does not begin with http:// or https://, or contains a space character
(' ', not arbitrary whitespace); a rejected string makes shorten answer
422 with the store unchanged, independently of the store contents. -/
theorem validate_rejects_iff (v : String) :
    ((∃ e, validate_url v = .error e) ↔
      (v = "" ∨ (startsWithStr v "http://" || startsWithStr v "https://") = false
        ∨ v.data.contains ' ' = true)) ∧
    (∀ base pick db, (∃ e, validate_url v = .error e) →
      (shorten_url base pick db v).2 = db ∧
      ∃ d, (shorten_url base pick db v).1 = .error ⟨422, d⟩) := by
  constructor
  · by_cases h1 : v.data.isEmpty = true
    · have hv : v = "" := by
        rw [String.ext_iff]
        simpa using List.isEmpty_iff.mp h1
      subst hv
      exact iff_of_true ⟨"URL cannot be empty", rfl⟩ (Or.inl rfl)
    · have hne : ¬ v = "" := by
        intro hv
        subst hv
        simp at h1
      by_cases h2 : (startsWithStr v "http://" || startsWithStr v "https://") = true
      · by_cases h3 : v.data.contains ' ' = true
        · have h3m : ' ' ∈ v.data := by simpa using h3
          exact iff_of_true
            ⟨"URL cannot contain spaces", by simp [validate_url, h1, h2, h3m]⟩
            (Or.inr (Or.inr h3))
        · have h3m : ' ' ∉ v.data := by simpa using h3
          apply iff_of_false
          · simp [validate_url, h1, h2, h3m]
          · rintro (hv | hsw | hc)
            · exact hne hv
            · rw [hsw] at h2
              cases h2
            · exact h3 hc
      · exact iff_of_true
          ⟨"URL must start with http:// or https://", by simp [validate_url, h1, h2]⟩
          (Or.inr (Or.inl (by simpa using h2)))
  · rintro base pick db ⟨e, he⟩
    refine ⟨by simp [shorten_url, he], e, by simp [shorten_url, he]⟩

/-- C5 witness: the amended characterization applied to the schemeless
string "example.com". -/
theorem validate_rejects_iff_witness :
    (∃ e, validate_url "example.com" = .error e) ∧
    (shorten_url "b" (fun _ _ => 0) [] "example.com").2 = ([] : Store) :=
  ⟨(validate_rejects_iff "example.com").1.mpr (by decide),
   ((validate_rejects_iff "example.com").2 "b" (fun _ _ => 0) []
      ((validate_rejects_iff "example.com").1.mpr (by decide))).1⟩

/-- C6 counterexample: when all ten candidate codes collide, the 500 error
detail produced by the code is "Failed to generate unique code", not
"could not allocate unique code". -/
theorem exhaustion_counterexample :
    shorten_url "http://localhost:8000" (fun _ _ => 0)
        [⟨"aaaaaa", "http://y", 0⟩] "http://x" =
      (.error ⟨500, "Failed to generate unique code"⟩, [⟨"aaaaaa", "http://y", 0⟩]) ∧
    "Failed to generate unique code" ≠ "could not allocate unique code" :=
  ⟨rfl, by decide⟩

/-- C6 (amended): on a URL not already present, shorten tries at most 10
candidate codes (attempts beyond `max_attempts` are never consulted); if
all 10 candidates are already taken it fails with a 500 internal error
whose detail is "Failed to generate unique code" and leaves the store
unchanged. -/
theorem bounded_retry_exhaustion :
    (∀ base pick db url, validate_url url = .ok url → findByTarget db url = none →
      (∀ i, i < max_attempts →
        (findByCode db (generate_code (pick i) 6)).isSome = true) →
      shorten_url base pick db url
        = (.error ⟨500, "Failed to generate unique code"⟩, db)) ∧
    (∀ base pick pick2 db url,
      (∀ i, i < max_attempts → pick i = pick2 i) →
      shorten_url base pick db url = shorten_url base pick2 db url) := by
  constructor
  · intro base pick db url hv ht hall
    have hfc : fresh_code pick db = none := by
      rw [fresh_code, List.find?_eq_none]
      intro c hc
      rcases List.mem_map.mp hc with ⟨i, hi, rfl⟩
      have hs := hall i (List.mem_range.mp hi)
      intro h
      rw [Option.isNone_iff_eq_none] at h
      rw [h] at hs
      simp at hs
    simp [shorten_url, hv, ht, hfc]
  · intro base pick pick2 db url hpp
    have hfc : fresh_code pick db = fresh_code pick2 db := by
      unfold fresh_code
      congr 1
      apply List.map_congr_left
      intro i hi
      rw [hpp i (List.mem_range.mp hi)]
    simp only [shorten_url, hfc]

/-- C1: round-trip — when shorten succeeds on U with code C, a redirect on
C succeeds with a 307 whose Location is exactly U (on a store whose codes
are unique). -/
theorem round_trip_redirect (base : String) (pick : Nat → Nat → Fin 62)
    (db : Store) (url : String) (resp : ShortenResponse) (db1 : Store)
    (hU : codesUnique db)
    (h : shorten_url base pick db url = (.ok resp, db1)) :
    redirect_to_url db1 resp.code
      = (.ok ⟨307, url⟩, incrementVisits db1 resp.code) := by
  obtain ⟨hval, hc⟩ := shorten_url_ok_cases h
  rcases hc with ⟨ex, hex, rfl, rfl⟩ | ⟨c, hnone, hfc, rfl, rfl⟩
  · dsimp only
    have hmem := findByTarget_mem hex
    have htar := findByTarget_target hex
    have hsome : (findByCode db1 ex.code).isSome = true :=
      List.find?_isSome.mpr ⟨ex, hmem, by simp⟩
    obtain ⟨r, hr⟩ := Option.isSome_iff_exists.mp hsome
    have hrex : r = ex :=
      List.inj_on_of_nodup_map hU (findByCode_mem hr) hmem
        (by rw [findByCode_code hr])
    subst hrex
    rw [redirect_of_found hr, htar]
  · dsimp only
    have hcode : findByCode db c = none := fresh_code_pred hfc
    have h1 : findByCode (db ++ [⟨c, url, 0⟩]) c = some ⟨c, url, 0⟩ := by
      rw [findByCode_append_of_none hcode]
      exact @List.find?_cons_of_pos _ (fun r => r.code == c)
        (⟨c, url, 0⟩ : URLMapping) [] (by simp)
    rw [redirect_of_found h1]

/-- C1 witness: shorten then redirect on a concrete one-element run. -/
theorem round_trip_redirect_witness :
    redirect_to_url [⟨"aaaaaa", "http://x", 0⟩] "aaaaaa"
      = (.ok ⟨307, "http://x"⟩, [⟨"aaaaaa", "http://x", 1⟩]) :=
  round_trip_redirect "b" (fun _ _ => 0) [] "http://x" ⟨"aaaaaa", "b/aaaaaa"⟩
    [⟨"aaaaaa", "http://x", 0⟩] (by simp [codesUnique]) rfl

/-- C2: shortening the same URL a second time (with any oracle) returns
the same response — in particular the same code — and leaves the store
exactly as after the first call: no second record, no mutation. -/
theorem shorten_idempotent (base : String) (pick pick2 : Nat → Nat → Fin 62)
    (db : Store) (url : String) (resp : ShortenResponse) (db1 : Store)
    (h : shorten_url base pick db url = (.ok resp, db1)) :
    shorten_url base pick2 db1 url = (.ok resp, db1) := by
  obtain ⟨hval, hc⟩ := shorten_url_ok_cases h
  rcases hc with ⟨ex, hex, rfl, rfl⟩ | ⟨c, hnone, hfc, rfl, rfl⟩
  · simp [shorten_url, hval, hex]
  · have ht1 : findByTarget (db ++ [⟨c, url, 0⟩]) url = some ⟨c, url, 0⟩ := by
      rw [findByTarget_append_of_none hnone]
      exact @List.find?_cons_of_pos _ (fun r => r.target_url == url)
        (⟨c, url, 0⟩ : URLMapping) [] (by simp)
    simp [shorten_url, hval, ht1]

/-- C2 witness: repeating shorten on a concrete one-element run. -/
theorem shorten_idempotent_witness :
    shorten_url "b" (fun _ _ => 1) [⟨"aaaaaa", "http://x", 0⟩] "http://x"
      = (.ok ⟨"aaaaaa", "b/aaaaaa"⟩, [⟨"aaaaaa", "http://x", 0⟩]) :=
  shorten_idempotent "b" (fun _ _ => 0) (fun _ _ => 1) [] "http://x"
    ⟨"aaaaaa", "b/aaaaaa"⟩ [⟨"aaaaaa", "http://x", 0⟩] rfl

/-- C3: a mapping freshly created by shorten has `visits = 0`, and after N
successful redirects on its code the stats endpoint reports exactly N
visits. -/
theorem visit_counting (base : String) (pick : Nat → Nat → Fin 62) (db : Store)
    (url : String) (resp : ShortenResponse) (db1 : Store)
    (hfresh : findByTarget db url = none)
    (h : shorten_url base pick db url = (.ok resp, db1)) (N : Nat) :
    findByCode db1 resp.code = some ⟨resp.code, url, 0⟩ ∧
    ∃ dbN, redirectN db1 resp.code N = .ok dbN ∧
      get_stats dbN resp.code = (.ok ⟨resp.code, url, N⟩, dbN) := by
  obtain ⟨hval, hc⟩ := shorten_url_ok_cases h
  rcases hc with ⟨ex, hex, rfl, rfl⟩ | ⟨c, hnone, hfc, rfl, rfl⟩
  · rw [hfresh] at hex
    cases hex
  · dsimp only
    have hcode : findByCode db c = none := fresh_code_pred hfc
    have h1 : findByCode (db ++ [⟨c, url, 0⟩]) c = some ⟨c, url, 0⟩ := by
      rw [findByCode_append_of_none hcode]
      exact @List.find?_cons_of_pos _ (fun r => r.code == c)
        (⟨c, url, 0⟩ : URLMapping) [] (by simp)
    refine ⟨h1, ?_⟩
    obtain ⟨dbN, hN, hfind⟩ := redirectN_spec h1 N
    exact ⟨dbN, hN, by simp [get_stats, hfind]⟩

/-- C3 witness: three redirects on a freshly created mapping report three
visits. -/
theorem visit_counting_witness :
    findByCode [⟨"aaaaaa", "http://x", 0⟩] "aaaaaa"
      = some ⟨"aaaaaa", "http://x", 0⟩ ∧
    ∃ dbN, redirectN [⟨"aaaaaa", "http://x", 0⟩] "aaaaaa" 3 = .ok dbN ∧
      get_stats dbN "aaaaaa" = (.ok ⟨"aaaaaa", "http://x", 3⟩, dbN) :=
  visit_counting "b" (fun _ _ => 0) [] "http://x" ⟨"aaaaaa", "b/aaaaaa"⟩
    [⟨"aaaaaa", "http://x", 0⟩] rfl rfl 3

/-- C7: every code returned by a successful shorten has exactly 6
characters, all from the 62-symbol alphanumeric alphabet, provided every
code already in the store is of that shape. -/
theorem code_format (base : String) (pick : Nat → Nat → Fin 62) (db : Store)
    (url : String) (resp : ShortenResponse) (db1 : Store)
    (hdb : ∀ r ∈ db, goodCode r.code = true)
    (h : shorten_url base pick db url = (.ok resp, db1)) :
    goodCode resp.code = true := by
  obtain ⟨hval, hc⟩ := shorten_url_ok_cases h
  rcases hc with ⟨ex, hex, rfl, rfl⟩ | ⟨c, hnone, hfc, rfl, rfl⟩
  · exact hdb ex (findByTarget_mem hex)
  · obtain ⟨i, hi, rfl⟩ := fresh_code_is_generated hfc
    exact goodCode_generate_code (pick i)

/-- C7 witness: the code allocated on an empty store is well-formed. -/
theorem code_format_witness : goodCode "aaaaaa" = true :=
  code_format "b" (fun _ _ => 0) [] "http://x" ⟨"aaaaaa", "b/aaaaaa"⟩
    [⟨"aaaaaa", "http://x", 0⟩] (by simp) rfl

/-- C6 witness: exhaustion on a store already holding the only reachable
candidate, and insensitivity to the oracle beyond attempt 10. -/
theorem bounded_retry_exhaustion_witness :
    shorten_url "b" (fun _ _ => 0) [⟨"aaaaaa", "http://y", 0⟩] "http://x" =
      (.error ⟨500, "Failed to generate unique code"⟩, [⟨"aaaaaa", "http://y", 0⟩]) ∧
    shorten_url "b" (fun _ _ => 0) [] "http://z" =
      shorten_url "b" (fun i _ => if i < 10 then 0 else 1) [] "http://z" :=
  ⟨bounded_retry_exhaustion.1 "b" (fun _ _ => 0)
      [⟨"aaaaaa", "http://y", 0⟩] "http://x" rfl rfl (by decide),
   bounded_retry_exhaustion.2 "b" (fun _ _ => 0) (fun i _ => if i < 10 then 0 else 1)
      [] "http://z" (fun i hi => by funext j; exact (if_pos hi).symm)⟩

/-- C8: the store invariants are preserved by every operation: shorten
keeps codes and targets unique and only ever appends; redirect preserves
the code and target columns (so codes and targets stay unique and no
record is removed) and changes at most the visits field of a record
carrying the looked-up code, incrementing it by one; get_stats never
changes the store. -/
theorem store_invariants (base : String) (pick : Nat → Nat → Fin 62) (db : Store)
    (url c s : String) (hU : codesUnique db) (hT : targetsUnique db) :
    (codesUnique (shorten_url base pick db url).2 ∧
     targetsUnique (shorten_url base pick db url).2 ∧
     ((shorten_url base pick db url).2 = db ∨
       ∃ m, (shorten_url base pick db url).2 = db ++ [m])) ∧
    ((redirect_to_url db c).2.map URLMapping.code = db.map URLMapping.code ∧
     (redirect_to_url db c).2.map URLMapping.target_url
        = db.map URLMapping.target_url ∧
     codesUnique (redirect_to_url db c).2 ∧
     targetsUnique (redirect_to_url db c).2 ∧
     (∀ i : Nat, ((redirect_to_url db c).2)[i]? = db[i]? ∨
        ∃ r, db[i]? = some r ∧ r.code = c ∧
          ((redirect_to_url db c).2)[i]?
            = some ⟨r.code, r.target_url, r.visits + 1⟩)) ∧
    (get_stats db s).2 = db := by
  refine ⟨?_, ?_, ?_⟩
  · have key : (shorten_url base pick db url).2 = db ∨
        ∃ cc, findByCode db cc = none ∧ findByTarget db url = none ∧
          (shorten_url base pick db url).2 = db ++ [⟨cc, url, 0⟩] := by
      unfold shorten_url
      split
      · left
        rfl
      · rename_i u hval
        obtain rfl : u = url := validate_url_ok hval
        split
        · left
          rfl
        · rename_i hnone
          split
          · left
            rfl
          · rename_i cc hfc
            right
            exact ⟨cc, fresh_code_pred hfc, hnone, rfl⟩
    rcases key with hsame | ⟨cc, hfreshc, hfresht, happ⟩
    · rw [hsame]
      exact ⟨hU, hT, Or.inl rfl⟩
    · rw [happ]
      refine ⟨?_, ?_, Or.inr ⟨_, rfl⟩⟩
      · rw [codesUnique, List.map_append, List.map_cons, List.map_nil]
        refine nodup_append_singleton hU ?_
        intro hmm
        rcases List.mem_map.mp hmm with ⟨r, hrmem, hrcode⟩
        exact (findByCode_eq_none.mp hfreshc r hrmem) hrcode
      · rw [targetsUnique, List.map_append, List.map_cons, List.map_nil]
        refine nodup_append_singleton hT ?_
        intro hmm
        rcases List.mem_map.mp hmm with ⟨r, hrmem, hrtar⟩
        exact (findByTarget_eq_none.mp hfresht r hrmem) hrtar
  · cases hfind : findByCode db c with
    | none =>
      simp [redirect_to_url, hfind, hU, hT]
    | some m =>
      simp only [redirect_to_url, hfind]
      refine ⟨incrementVisits_map_code db c, incrementVisits_map_target db c,
        ?_, ?_, incrementVisits_getElem? db c⟩
      · rw [codesUnique, incrementVisits_map_code]
        exact hU
      · rw [targetsUnique, incrementVisits_map_target]
        exact hT
  · cases hfind : findByCode db s with
    | none => simp [get_stats, hfind]
    | some m => simp [get_stats, hfind]

/-- C8 witness: the invariants verified on a concrete singleton store. -/
theorem store_invariants_witness :
    codesUnique
      (shorten_url "b" (fun _ _ => 0) [⟨"cccccc", "http://y", 0⟩] "http://x").2 ∧
    (get_stats [⟨"cccccc", "http://y", 0⟩] "zzzzzz").2
      = [⟨"cccccc", "http://y", 0⟩] :=
  ⟨(store_invariants "b" (fun _ _ => 0) [⟨"cccccc", "http://y", 0⟩] "http://x"
      "cccccc" "zzzzzz" (by simp [codesUnique]) (by simp [targetsUnique])).1.1,
   (store_invariants "b" (fun _ _ => 0) [⟨"cccccc", "http://y", 0⟩] "http://x"
      "cccccc" "zzzzzz" (by simp [codesUnique]) (by simp [targetsUnique])).2.2⟩

set_option maxRecDepth 8192 in
/-- C9: a URL of length 2049 passes validation and is stored as-is by
shorten; the declared 2048-character bound on `target_url` is not
enforced anywhere on the creation path. -/
theorem length_bound_violated :
    validate_url longURL = .ok longURL ∧
    shorten_url "b" (fun _ _ => 0) [] longURL =
      (.ok ⟨"aaaaaa", "b/aaaaaa"⟩, [⟨"aaaaaa", longURL, 0⟩]) ∧
    2048 < longURL.length := by
  refine ⟨rfl, rfl, ?_⟩
  show 2048 < longURL.data.length
  simp [longURL, List.length_replicate]

end UrlShortener
